import Mathlib

/-!
Formal model of the MLflow Pipelines step-orchestration core.

The development shallowly embeds the orchestration code of
`mlflow/pipelines/pipeline.py` and `mlflow/pipelines/steps/split.py`,
together with models (built from the design specification) of the
execution utilities exercised by `tests/pipelines/test_execution_utils.py`
(`_ExecutionPlan`, `_get_or_create_execution_directory`, and the state
update performed by `run_pipeline_step`).  Machine strings are Lean
`String`s, timestamps are `Nat`, and Python exceptions are modelled with
`Option`/`Except`.
-/

namespace MLP

/-- ASCII apostrophe, written via its code point so that rendered Python
messages can be built by concatenation. -/
def apos : String := String.singleton (Char.ofNat 39)

/-- ASCII backquote, as used by GNU make's up-to-date message. -/
def btick : String := String.singleton (Char.ofNat 96)

/-- Helper for substring search over character lists: does `pat` occur
contiguously in the second argument? -/
def containsSubAux (pat : List Char) : List Char → Bool
  | [] => pat.isEmpty
  | c :: tl => pat.isPrefixOf (c :: tl) || containsSubAux pat tl

/-- Decidable substring occurrence on strings. -/
def containsSubB (s pat : String) : Bool := containsSubAux pat.data s.data

/-- Proposition: `part` occurs contiguously inside `msg`. -/
def mentions (msg part : String) : Prop :=
  ∃ pre post : List Char, msg.data = pre ++ part.data ++ post

lemma str_data_append (s t : String) : (s ++ t).data = s.data ++ t.data := rfl

lemma mentions_of_parts (pre part post msg : String) (h : pre ++ part ++ post = msg) :
    mentions msg part :=
  ⟨pre.data, post.data, by rw [← h]; exact rfl⟩

lemma isPrefixOf_append_self (l r : List Char) : l.isPrefixOf (l ++ r) = true := by
  induction l with
  | nil => cases r <;> rfl
  | cons c tl ih => simp [List.isPrefixOf, ih]

lemma containsSubAux_nil_pat (l : List Char) : containsSubAux [] l = true := by
  induction l with
  | nil => rfl
  | cons c tl ih => simp [containsSubAux, List.isPrefixOf]

lemma containsSubAux_here (pat post : List Char) : containsSubAux pat (pat ++ post) = true := by
  cases pat with
  | nil => simpa using containsSubAux_nil_pat post
  | cons p ps => simp [containsSubAux, isPrefixOf_append_self]

lemma containsSubAux_append (pat pre post : List Char) :
    containsSubAux pat (pre ++ (pat ++ post)) = true := by
  induction pre with
  | nil => simpa using containsSubAux_here pat post
  | cons c tl ih => simp [containsSubAux, ih]

lemma mentions_containsSubB {msg part : String} (h : mentions msg part) :
    containsSubB msg part = true := by
  obtain ⟨pre, post, hdata⟩ := h
  unfold containsSubB
  rw [hdata, List.append_assoc]
  exact containsSubAux_append part.data pre post

/-! Data model: step identity, classification and persisted execution state,
following `mlflow/pipelines/step.py` as used from `pipeline.py`. -/

/-- Persisted step status (`StepStatus` in `mlflow/pipelines/step.py`). -/
inductive StepStatus
  | UNKNOWN
  | SUCCEEDED
  | FAILED
deriving DecidableEq, Repr

/-- Classification tag partitioning the step list into disjoint DAGs
(`StepClass` in `mlflow/pipelines/step.py`; `split.py` returns
`StepClass.TRAINING`). -/
inductive StepClass
  | TRAINING
  | PREDICTION
  | UNKNOWN
deriving DecidableEq, Repr

/-- Persisted execution-state record of one step: status, epoch timestamp
(0 = never run) and an optional captured stack trace. -/
structure ExecutionState where
  status : StepStatus
  lastUpdatedTimestamp : Nat
  stackTrace : Option String
deriving DecidableEq, Repr

/-- A step descriptor as `pipeline.py` consumes it: a unique name and a
declared classification. -/
structure Step where
  name : String
  stepClass : StepClass
deriving DecidableEq, Repr

/-! Subgraph resolver: `_BasePipeline._get_subgraph_for_target_step`
(`pipeline.py` lines 162-173). -/

/-- Value of the Python guard expression
`target_step.step_class == StepClass.UNKNOWN` at `pipeline.py` line 168.
`step_class` is a plain method (the loop below calls it as
`step.step_class()`), so the guard compares a bound-method object with an
enum member, which is always `False` in Python. -/
def stepClassAttrEqUnknown (_target : Step) : Bool := false

/-- Embedding of `_get_subgraph_for_target_step`: early return of the empty
list behind the (dead) guard, otherwise collect, in order, the steps whose
classification equals the target's. -/
def getSubgraphForTargetStep (steps : List Step) (target : Step) : List Step :=
  if stepClassAttrEqUnknown target then []
  else steps.filter (fun step => target.stepClass == step.stepClass)

/-! Consolidated run error: the status check at the end of
`_BasePipeline.run` (`pipeline.py` lines 98-119). -/

/-- Python f-string rendering of an optional string (`None` prints as
"None"). -/
def pyOptStr (o : Option String) : String :=
  match o with
  | some s => s
  | none => "None"

/-- Message raised when a specific step was requested (`pipeline.py`
lines 107-112). -/
def failedStepMessage (stepArg pipelineName lastName trace : String) : String :=
  "Failed to run step " ++ apos ++ stepArg ++ apos ++ " of pipeline " ++ apos ++ pipelineName
    ++ apos ++ ". An error was encountered while running step " ++ apos ++ lastName ++ apos
    ++ ": " ++ trace

/-- Message raised when the whole pipeline was run (`pipeline.py`
lines 113-119). -/
def failedPipelineMessage (pipelineName lastName trace : String) : String :=
  "Failed to run pipeline " ++ apos ++ pipelineName
    ++ apos ++ ". An error was encountered while running step " ++ apos ++ lastName ++ apos
    ++ ": " ++ trace

/-- Embedding of the verification step at the end of `_BasePipeline.run`:
given the last executed step's persisted state, return the exception
message raised, or `none` when the run is silent. -/
def runStatusCheck (pipelineName : String) (stepArg : Option String) (lastName : String)
    (state : ExecutionState) : Option String :=
  if state.status ≠ StepStatus.SUCCEEDED then
    some (match stepArg with
      | some s => failedStepMessage s pipelineName lastName (pyOptStr state.stackTrace)
      | none => failedPipelineMessage pipelineName lastName (pyOptStr state.stackTrace))
  else none

/-! Lookup errors: `_BasePipeline._get_step` (`pipeline.py` lines 151-159)
and `_BasePipeline._get_artifact` (lines 346-362). -/

/-- Python `repr` of a string. -/
def pyStrRepr (s : String) : String := apos ++ s ++ apos

/-- Python rendering of a list of strings, as an f-string interpolates it. -/
def pyListRepr (l : List String) : String :=
  "[" ++ String.intercalate ", " (l.map pyStrRepr) ++ "]"

/-- Embedding of `_BasePipeline._get_step`: return the step at the index of
the first occurrence of `stepName`, or raise a message listing the
available step names. -/
def getStep (steps : List Step) (stepName : String) : Except String Step :=
  let stepNames := steps.map Step.name
  if h : stepName ∈ stepNames then
    Except.ok (steps.get ⟨stepNames.indexOf stepName,
      lt_of_lt_of_eq (List.indexOf_lt_length.mpr h) (List.length_map steps Step.name)⟩)
  else
    Except.error ("Step " ++ stepName ++ " not found in pipeline. Available steps are "
      ++ pyListRepr stepNames)

/-- Embedding of `_BasePipeline._get_artifact`.  An artifact is modelled by
its name; the nested loop over `self._steps` and `step.get_artifacts()` is
the flattening of the per-step artifact-name lists.  The first artifact
whose name matches is returned; otherwise the "not supported" message is
raised. -/
def getArtifactFromSteps (stepArtifactNames : List (List String)) (artifactName : String) :
    Except String String :=
  match stepArtifactNames.flatten.find? (fun a => a == artifactName) with
  | some a => Except.ok a
  | none => Except.error ("The artifact with name " ++ apos ++ artifactName ++ apos
      ++ " is not supported.")

/-! Step-descriptor lifecycle across public entry points (`pipeline.py`
lines 86-88, 122-135 and 137-149).  The pipeline object carries the mutable
`_steps` field; the current configuration is modelled by the step list it
resolves to, so `_resolve_pipeline_steps` is the identity on the current
configuration.  Each entry point returns the updated object together with
the step descriptors the call actually operates on. -/

/-- The pipeline object's `_steps` field. -/
structure PipelineObj where
  steps : List Step
deriving DecidableEq, Repr

/-- Embedding of `_resolve_pipeline_steps` (`pipeline.py` lines 324-333):
construct the step descriptors from the current configuration. -/
def resolvePipelineSteps (currentConfig : List Step) : List Step := currentConfig

/-- Embedding of `run` (`pipeline.py` line 87): re-resolves
`self._steps` from the current configuration before operating. -/
def pipelineRun (currentConfig : List Step) (_self : PipelineObj) : PipelineObj × List Step :=
  let steps := resolvePipelineSteps currentConfig
  ({ steps := steps }, steps)

/-- Embedding of `inspect` (`pipeline.py` line 130): re-resolves
`self._steps` from the current configuration before operating. -/
def pipelineInspect (currentConfig : List Step) (_self : PipelineObj) : PipelineObj × List Step :=
  let steps := resolvePipelineSteps currentConfig
  ({ steps := steps }, steps)

/-- Embedding of `clean` (`pipeline.py` lines 138-149): reads
`self._steps` as left by the previous construction/`run`/`inspect`, without
re-resolving from the current configuration. -/
def pipelineClean (_currentConfig : List Step) (self : PipelineObj) : PipelineObj × List Step :=
  (self, self.steps)

/-! Theorems for claims C1, C7, C8 and C9. -/

/-- A report-style step whose classification is "unknown". -/
def reportOnlyStep : Step := { name := "report", stepClass := StepClass.UNKNOWN }

/-- Claim C1: the spec states that the subgraph resolver returns the empty
list when the target's classification is "unknown".  The code's guard
compares the `step_class` method object with `StepClass.UNKNOWN` (always
false), so for an unknown-classified target the resolver instead returns
every unknown-classified step — in particular the non-empty list containing
the target itself. -/
theorem subgraph_unknown_target_nonempty :
    getSubgraphForTargetStep [reportOnlyStep] reportOnlyStep = [reportOnlyStep] ∧
    getSubgraphForTargetStep [reportOnlyStep] reportOnlyStep ≠ [] := by
  constructor <;> decide

lemma failedStepMessage_mentions_pipeline (s p l t : String) :
    mentions (failedStepMessage s p l t) p :=
  mentions_of_parts ("Failed to run step " ++ apos ++ s ++ apos ++ " of pipeline " ++ apos) p
    (apos ++ ". An error was encountered while running step " ++ apos ++ l ++ apos ++ ": " ++ t)
    _ (by simp [failedStepMessage, String.append_assoc])

lemma failedStepMessage_mentions_last (s p l t : String) :
    mentions (failedStepMessage s p l t) l :=
  mentions_of_parts ("Failed to run step " ++ apos ++ s ++ apos ++ " of pipeline " ++ apos ++ p
      ++ apos ++ ". An error was encountered while running step " ++ apos) l
    (apos ++ ": " ++ t)
    _ (by simp [failedStepMessage, String.append_assoc])

lemma failedStepMessage_mentions_trace (s p l t : String) :
    mentions (failedStepMessage s p l t) t :=
  ⟨("Failed to run step " ++ apos ++ s ++ apos ++ " of pipeline " ++ apos ++ p
      ++ apos ++ ". An error was encountered while running step " ++ apos ++ l ++ apos
      ++ ": ").data, [], by simp [failedStepMessage, str_data_append, List.append_assoc]⟩

lemma failedPipelineMessage_mentions_pipeline (p l t : String) :
    mentions (failedPipelineMessage p l t) p :=
  mentions_of_parts ("Failed to run pipeline " ++ apos) p
    (apos ++ ". An error was encountered while running step " ++ apos ++ l ++ apos ++ ": " ++ t)
    _ (by simp [failedPipelineMessage, String.append_assoc])

lemma failedPipelineMessage_mentions_last (p l t : String) :
    mentions (failedPipelineMessage p l t) l :=
  mentions_of_parts ("Failed to run pipeline " ++ apos ++ p
      ++ apos ++ ". An error was encountered while running step " ++ apos) l
    (apos ++ ": " ++ t)
    _ (by simp [failedPipelineMessage, String.append_assoc])

lemma failedPipelineMessage_mentions_trace (p l t : String) :
    mentions (failedPipelineMessage p l t) t :=
  ⟨("Failed to run pipeline " ++ apos ++ p
      ++ apos ++ ". An error was encountered while running step " ++ apos ++ l ++ apos
      ++ ": ").data, [], by simp [failedPipelineMessage, str_data_append, List.append_assoc]⟩

/-- Claim C7: when the last executed step's recorded status is not
SUCCEEDED, `run` raises exactly one consolidated error whose message names
the pipeline and the failing step and includes that step's captured stack
trace; when the status is SUCCEEDED, `run` raises nothing. -/
theorem run_failure_raises_consolidated_error (pipelineName : String) (stepArg : Option String)
    (lastName : String) (state : ExecutionState) :
    (state.status ≠ StepStatus.SUCCEEDED →
      ∃ msg, runStatusCheck pipelineName stepArg lastName state = some msg ∧
        mentions msg pipelineName ∧ mentions msg lastName ∧
        mentions msg (pyOptStr state.stackTrace)) ∧
    (state.status = StepStatus.SUCCEEDED →
      runStatusCheck pipelineName stepArg lastName state = none) := by
  constructor
  · intro hne
    unfold runStatusCheck
    rw [if_pos hne]
    cases stepArg with
    | some s =>
        exact ⟨_, rfl, failedStepMessage_mentions_pipeline s pipelineName lastName _,
          failedStepMessage_mentions_last s pipelineName lastName _,
          failedStepMessage_mentions_trace s pipelineName lastName _⟩
    | none =>
        exact ⟨_, rfl, failedPipelineMessage_mentions_pipeline pipelineName lastName _,
          failedPipelineMessage_mentions_last pipelineName lastName _,
          failedPipelineMessage_mentions_trace pipelineName lastName _⟩
  · intro heq
    unfold runStatusCheck
    rw [if_neg (not_not_intro heq)]

/-- Concrete instantiation of the run-error theorem: a FAILED ingest step
inside pipeline "regression_demo". -/
theorem run_failure_raises_consolidated_error_witness :
    ∃ msg, runStatusCheck "regression_demo" (some "split") "ingest"
        ⟨StepStatus.FAILED, 5, some "Traceback (most recent call last)"⟩ = some msg ∧
      mentions msg "regression_demo" ∧ mentions msg "ingest" ∧
      mentions msg (pyOptStr (some "Traceback (most recent call last)")) :=
  (run_failure_raises_consolidated_error "regression_demo" (some "split") "ingest"
    ⟨StepStatus.FAILED, 5, some "Traceback (most recent call last)"⟩).1 (by decide)

/-- Claim C8 counterexample: the artifact-lookup error message is a fixed
sentence that does not list the available artifact names, contradicting the
claim that it lists the available options.  With available artifact
"training_data" and request "foo", the raised message does not mention
"training_data" at all. -/
theorem artifact_error_lacks_options_counterexample :
    getArtifactFromSteps [["training_data"]] "foo" =
      Except.error ("The artifact with name " ++ apos ++ "foo" ++ apos
        ++ " is not supported.") ∧
    ¬ mentions ("The artifact with name " ++ apos ++ "foo" ++ apos
        ++ " is not supported.") "training_data" := by
  constructor
  · rfl
  · intro h
    have hb := mentions_containsSubB h
    have hfalse : containsSubB ("The artifact with name " ++ apos ++ "foo" ++ apos
        ++ " is not supported.") "training_data" = false := by decide
    rw [hfalse] at hb
    exact Bool.false_ne_true hb

/-- Claim C8, amended: an unknown step name fails immediately with a Lookup
error listing the available step names; an unsupported artifact name fails
immediately with an error naming the artifact, but without listing the
available options. -/
theorem lookup_error_messages_amended (steps : List Step) (stepName : String)
    (hs : stepName ∉ steps.map Step.name)
    (stepArtifactNames : List (List String)) (artifactName : String)
    (ha : artifactName ∉ stepArtifactNames.flatten) :
    (∃ msg, getStep steps stepName = Except.error msg ∧
      mentions msg stepName ∧ mentions msg (pyListRepr (steps.map Step.name))) ∧
    getArtifactFromSteps stepArtifactNames artifactName =
      Except.error ("The artifact with name " ++ apos ++ artifactName ++ apos
        ++ " is not supported.") := by
  constructor
  · refine ⟨"Step " ++ stepName ++ " not found in pipeline. Available steps are "
      ++ pyListRepr (steps.map Step.name), ?_, ?_, ?_⟩
    · simp [getStep, hs]
    · exact mentions_of_parts "Step " stepName
        (" not found in pipeline. Available steps are " ++ pyListRepr (steps.map Step.name))
        _ (by simp [String.append_assoc])
    · exact ⟨("Step " ++ stepName ++ " not found in pipeline. Available steps are ").data, [],
        by simp [str_data_append, List.append_assoc]⟩
  · unfold getArtifactFromSteps
    rw [List.find?_eq_none.mpr (by intro x hx; simp; rintro rfl; exact ha hx)]

/-- Concrete instantiation of the amended lookup-error theorem. -/
theorem lookup_error_messages_amended_witness :
    (∃ msg, getStep [{ name := "ingest", stepClass := StepClass.TRAINING }] "train" =
        Except.error msg ∧
      mentions msg "train" ∧
      mentions msg (pyListRepr ([{ name := "ingest", stepClass := StepClass.TRAINING }].map
        Step.name))) ∧
    getArtifactFromSteps [["training_data"]] "foo" =
      Except.error ("The artifact with name " ++ apos ++ "foo" ++ apos
        ++ " is not supported.") :=
  lookup_error_messages_amended [{ name := "ingest", stepClass := StepClass.TRAINING }] "train"
    (by decide) [["training_data"]] "foo" (by decide)

/-- Two distinct configurations for the lifecycle counterexample. -/
def ingestStepV1 : Step := { name := "ingest", stepClass := StepClass.TRAINING }

/-- Second configuration resolving to a differently-named step. -/
def ingestStepV2 : Step := { name := "ingest_v2", stepClass := StepClass.TRAINING }

/-- Claim C9 counterexample: `clean` does not reconstruct the step
descriptors from the current configuration.  A pipeline object whose
`_steps` were resolved from an older configuration, invoked with an edited
current configuration, operates on the stale descriptors, not on the ones
the current configuration resolves to. -/
theorem clean_uses_stale_steps_counterexample :
    (pipelineClean [ingestStepV2] { steps := [ingestStepV1] }).2 ≠
      resolvePipelineSteps [ingestStepV2] := by decide

/-- Claim C9, amended: `run` and `inspect` reconstruct the step descriptors
fresh from the current configuration at the start of the call (their result
is independent of the object's stored descriptors), while `clean` reuses
the stored descriptors (its result is independent of the current
configuration). -/
theorem entry_points_step_resolution (cfg cfgOther : List Step) (self selfOther : PipelineObj) :
    (pipelineRun cfg self).2 = resolvePipelineSteps cfg ∧
    (pipelineInspect cfg self).2 = resolvePipelineSteps cfg ∧
    (pipelineRun cfg self).2 = (pipelineRun cfg selfOther).2 ∧
    (pipelineInspect cfg self).2 = (pipelineInspect cfg selfOther).2 ∧
    (pipelineClean cfg self).2 = (pipelineClean cfgOther self).2 ∧
    (pipelineClean cfg self).2 = self.steps :=
  ⟨rfl, rfl, rfl, rfl, rfl, rfl⟩

/-! Execution plan (cache-vs-run classifier).  `_ExecutionPlan` lives in
`mlflow/pipelines/utils/execution.py`, which is not among the source files;
the definitions below are modelled from the specification (§4.4), with the
two signal shapes taken from the runner output recorded in
`tests/pipelines/test_execution_utils.py`. -/

/-- Modelled from the spec: the "step execution started" marker text naming
a step, as emitted by the per-step rule of the generated build file. -/
def stepStartText (stepName : String) : String := "# Run MLP step: " ++ stepName

/-- Modelled from the spec: GNU make's terminal "nothing to do" message for
the target rule. -/
def upToDateText (targetName : String) : String :=
  "make: " ++ btick ++ targetName ++ apos ++ " is up to date."

/-- Modelled from the spec: scanning the output lines in order, the first
relevant step named by a step-start marker; only relevant-subgraph step
names are matched, unrelated lines are ignored. -/
def firstStartedStep (outputLines trainSubgraph : List String) : Option String :=
  outputLines.findSome? (fun line =>
    trainSubgraph.find? (fun s => containsSubB line (stepStartText s)))

/-- Modelled from the spec: does some output line carry the terminal
"nothing to do" marker for the target? -/
def hasUpToDateMarker (targetName : String) (outputLines : List String) : Bool :=
  outputLines.any (fun line => containsSubB line (upToDateText targetName))

/-- Modelled from the spec: does some output line carry a step-start marker
for a relevant step positioned strictly before the target? -/
def someStartBeforeTarget (targetName : String) (outputLines trainSubgraph : List String) :
    Bool :=
  outputLines.any (fun line => trainSubgraph.any (fun s =>
    containsSubB line (stepStartText s) &&
      decide (trainSubgraph.indexOf s < trainSubgraph.indexOf targetName)))

/-- Modelled from the spec: `_ExecutionPlan(...).steps_cached`.  If the
"nothing to do" marker for the target appears and no step-start marker
names a step before the target, every relevant step up to and including the
target is cached; otherwise, the cached steps are the ordered prefix of the
relevant list strictly before the first step named by a start marker.  The
spec leaves the no-signal case unspecified; the model conservatively
reports nothing cached there. -/
def stepsCached (targetName : String) (outputLines trainSubgraph : List String) : List String :=
  if hasUpToDateMarker targetName outputLines
      && !(someStartBeforeTarget targetName outputLines trainSubgraph) then
    trainSubgraph.take (trainSubgraph.indexOf targetName + 1)
  else
    match firstStartedStep outputLines trainSubgraph with
    | some s => trainSubgraph.take (trainSubgraph.indexOf s)
    | none => []

lemma take_indexOf_eq_takeWhile (l : List String) (a : String) :
    l.take (l.indexOf a) = l.takeWhile (fun x => !(x == a)) := by
  induction l with
  | nil => rfl
  | cons b tl ih =>
    by_cases h : b = a
    · subst h
      simp [List.indexOf_cons_self, List.takeWhile_cons]
    · simp [List.indexOf_cons, h, List.takeWhile_cons, ih]

/-- Claim C2 counterexample: with the target in the middle of the relevant
list, a full-cache signal yields the prefix up to and including the target,
not the full relevant list as the claim states. -/
theorem stepsCached_mid_target_counterexample :
    stepsCached "split" [upToDateText "split"] ["ingest", "split", "transform"] =
      ["ingest", "split"] ∧
    stepsCached "split" [upToDateText "split"] ["ingest", "split", "transform"] ≠
      ["ingest", "split", "transform"] := by
  constructor <;> decide

/-- Claim C2, amended: when the terminal "nothing to do" marker for the
target appears with no earlier step-start markers, `steps_cached` is the
ordered prefix of the relevant list up to and including the target (the
full relevant list when the target is its last element); otherwise it is
exactly the ordered prefix strictly before the first step named by a start
marker — empty when the first relevant step has a start marker. -/
theorem stepsCached_characterization (targetName : String)
    (outputLines trainSubgraph : List String) :
    (hasUpToDateMarker targetName outputLines = true →
      someStartBeforeTarget targetName outputLines trainSubgraph = false →
      stepsCached targetName outputLines trainSubgraph =
        trainSubgraph.take (trainSubgraph.indexOf targetName + 1)) ∧
    (∀ s, (hasUpToDateMarker targetName outputLines = false ∨
        someStartBeforeTarget targetName outputLines trainSubgraph = true) →
      firstStartedStep outputLines trainSubgraph = some s →
      stepsCached targetName outputLines trainSubgraph =
        trainSubgraph.takeWhile (fun x => !(x == s))) ∧
    (∀ s rest, (hasUpToDateMarker targetName outputLines = false ∨
        someStartBeforeTarget targetName outputLines trainSubgraph = true) →
      firstStartedStep outputLines trainSubgraph = some s →
      trainSubgraph = s :: rest →
      stepsCached targetName outputLines trainSubgraph = []) := by
  refine ⟨?_, ?_, ?_⟩
  · intro h1 h2
    unfold stepsCached
    rw [if_pos (by simp [h1, h2])]
  · intro s hc hfirst
    unfold stepsCached
    rw [if_neg (by rcases hc with h | h <;> simp [h]), hfirst]
    exact take_indexOf_eq_takeWhile trainSubgraph s
  · intro s rest hc hfirst hhead
    unfold stepsCached
    rw [if_neg (by rcases hc with h | h <;> simp [h]), hfirst]
    subst hhead
    simp [List.indexOf_cons_self]

/-- Concrete instantiation of the amended execution-plan theorem on the
recorded full-cache-hit runner output for target "register". -/
theorem stepsCached_characterization_witness :
    stepsCached "register" [upToDateText "register"]
        ["ingest", "split", "transform", "train", "evaluate", "register"] =
      (["ingest", "split", "transform", "train", "evaluate", "register"].take
        ((["ingest", "split", "transform", "train", "evaluate", "register"].indexOf
          "register") + 1)) :=
  (stepsCached_characterization "register" [upToDateText "register"]
    ["ingest", "split", "transform", "train", "evaluate", "register"]).1
    (by decide) (by decide)

/-! Run-state update and downstream invalidation.  `run_pipeline_step` and
`clean_execution_state` live in `mlflow/pipelines/utils/execution.py`,
which is not among the source files; the state update below is modelled
from the specification (§4.5 and the success path of §4.6): steps of the
target's chain that the execution plan did not report as cached are freshly
executed (an ingest-classified target is never cacheable), and every step
positioned after a freshly executed step that was not itself freshly
executed is reset to the initial state with its output directory emptied. -/

/-- A step as the execution utilities see it: name, whether it is
ingest-classified, and the names of the output files it writes. -/
structure PStep where
  name : String
  isIngest : Bool
  outNames : List String
deriving DecidableEq, Repr

instance : Inhabited PStep := ⟨⟨"", false, []⟩⟩

/-- Per-step persisted state together with the step's output directory,
each output file carrying its modification timestamp. -/
structure StepRecord where
  status : StepStatus
  lastUpdatedTimestamp : Nat
  stackTrace : Option String
  outputFiles : List (String × Nat)
deriving DecidableEq, Repr

instance : Inhabited StepRecord := ⟨⟨StepStatus.UNKNOWN, 0, none, []⟩⟩

/-- Modelled from the spec: the invariant default record — UNKNOWN,
timestamp 0, no trace, empty output directory. -/
def initialRecord : StepRecord :=
  { status := StepStatus.UNKNOWN, lastUpdatedTimestamp := 0, stackTrace := none,
    outputFiles := [] }

/-- Modelled from the spec: the record written for a freshly and
successfully executed step — SUCCEEDED at the current clock, its output
files rewritten at the current clock. -/
def freshSuccess (now : Nat) (step : PStep) : StepRecord :=
  { status := StepStatus.SUCCEEDED, lastUpdatedTimestamp := now, stackTrace := none,
    outputFiles := step.outNames.map (fun f => (f, now)) }

/-- Modelled from the spec: the step at position `i` is freshly executed by
a run targeting position `target` when it is part of the chain up to the
target and is either absent from the plan's cached list or is the
never-cacheable ingest-classified target itself. -/
def executedFresh (steps : List PStep) (target : Nat) (cachedNames : List String)
    (i : Nat) : Bool :=
  decide (i ≤ target) &&
    (!(decide ((steps.getD i default).name ∈ cachedNames)) ||
      (decide (i = target) && (steps.getD i default).isIngest))

/-- Whether some step strictly before position `i` is freshly executed. -/
def anyEarlierExecuted (steps : List PStep) (target : Nat) (cachedNames : List String)
    (i : Nat) : Bool :=
  (List.range i).any (fun j => executedFresh steps target cachedNames j)

/-- Recursion over the per-step records, tracking the absolute position:
freshly executed steps get a fresh SUCCEEDED record, steps downstream of a
freshly executed step are reset, all others keep their record. -/
def runStateAux (steps : List PStep) (target : Nat) (cachedNames : List String) (now : Nat) :
    Nat → List StepRecord → List StepRecord
  | _, [] => []
  | i, r :: rs =>
    (if executedFresh steps target cachedNames i then freshSuccess now (steps.getD i default)
     else if anyEarlierExecuted steps target cachedNames i then initialRecord
     else r) :: runStateAux steps target cachedNames now (i + 1) rs

/-- Modelled from the spec: the state update a successful
`run_pipeline_step` invocation applies to the per-step records of the
target's chain, given the execution plan's cached-step names and the run's
clock. -/
def runPipelineStepModel (steps : List PStep) (target : Nat) (cachedNames : List String)
    (now : Nat) (st : List StepRecord) : List StepRecord :=
  runStateAux steps target cachedNames now 0 st

lemma runStateAux_getD (steps : List PStep) (target : Nat) (cachedNames : List String)
    (now : Nat) :
    ∀ (st : List StepRecord) (i k : Nat), k < st.length →
      (runStateAux steps target cachedNames now i st).getD k default =
        (if executedFresh steps target cachedNames (i + k) then
          freshSuccess now (steps.getD (i + k) default)
        else if anyEarlierExecuted steps target cachedNames (i + k) then initialRecord
        else st.getD k default) := by
  intro st
  induction st with
  | nil => intro i k hk; simp at hk
  | cons r rs ih =>
    intro i k hk
    cases k with
    | zero => simp [runStateAux]
    | succ k2 =>
      have hk2 : k2 < rs.length := by simpa using hk
      have hrec := ih (i + 1) k2 hk2
      have harith : i + 1 + k2 = i + (k2 + 1) := by omega
      simpa [runStateAux, List.getD_cons_succ, harith] using hrec

lemma runStateAux_unchanged (steps : List PStep) (target : Nat) (cachedNames : List String)
    (now : Nat) (hnone : ∀ j, executedFresh steps target cachedNames j = false) :
    ∀ (st : List StepRecord) (i : Nat), runStateAux steps target cachedNames now i st = st := by
  intro st
  induction st with
  | nil => intro i; rfl
  | cons r rs ih =>
    intro i
    have h2 : anyEarlierExecuted steps target cachedNames i = false := by
      simp [anyEarlierExecuted, hnone]
    simp [runStateAux, hnone i, h2, ih]

lemma getElem_mem_take {α : Type} (l : List α) (i n : Nat) (h1 : i < n) (h2 : i < l.length) :
    l[i] ∈ l.take n := by
  have hlen : i < (l.take n).length := by simp [List.length_take]; omega
  have := List.getElem_mem hlen
  simpa [List.getElem_take] using this

/-- Claim C3: a run whose target step is ingest-classified is never served
from the cache — whatever the execution plan reported as cached, the target
is freshly executed, its persisted timestamp and every output-file
modification timestamp become the run's clock — and every downstream
step's execution state is unconditionally reset to UNKNOWN with
timestamp 0 and an emptied output directory. -/
theorem ingest_target_fresh_and_clears_downstream (steps : List PStep) (target : Nat)
    (cachedNames : List String) (now : Nat) (st : List StepRecord)
    (hing : (steps.getD target default).isIngest = true)
    (htlen : target < st.length) :
    ((runPipelineStepModel steps target cachedNames now st).getD target
        default).lastUpdatedTimestamp = now ∧
    (∀ p ∈ ((runPipelineStepModel steps target cachedNames now st).getD target
        default).outputFiles, p.2 = now) ∧
    (∀ k, target < k → k < st.length →
      (runPipelineStepModel steps target cachedNames now st).getD k default =
        initialRecord) := by
  have hexec : executedFresh steps target cachedNames target = true := by
    unfold executedFresh
    rw [hing]
    simp
  unfold runPipelineStepModel
  have htgt := runStateAux_getD steps target cachedNames now st 0 target htlen
  simp only [Nat.zero_add] at htgt
  rw [if_pos hexec] at htgt
  refine ⟨?_, ?_, ?_⟩
  · rw [htgt]
    rfl
  · rw [htgt]
    intro p hp
    simp only [freshSuccess, List.mem_map] at hp
    obtain ⟨f, _, rfl⟩ := hp
    rfl
  · intro k hk1 hk2
    have hkk := runStateAux_getD steps target cachedNames now st 0 k hk2
    simp only [Nat.zero_add] at hkk
    have hkexec : executedFresh steps target cachedNames k = false := by
      have hnk : ¬ k ≤ target := by omega
      simp [executedFresh, hnk]
    have hkinv : anyEarlierExecuted steps target cachedNames k = true := by
      unfold anyEarlierExecuted
      rw [List.any_eq_true]
      exact ⟨target, List.mem_range.mpr hk1, hexec⟩
    rw [if_neg (by simp [hkexec]), if_pos hkinv] at hkk
    exact hkk

/-- Concrete instantiation of the ingest-target theorem: even with the plan
claiming both steps cached, the ingest target is re-executed at clock 9 and
the downstream split step is reset. -/
theorem ingest_target_fresh_and_clears_downstream_witness :
    ((runPipelineStepModel
        [⟨"ingest", true, ["dataset.parquet"]⟩, ⟨"split", false, ["train.parquet"]⟩] 0
        ["ingest", "split"] 9
        [⟨StepStatus.SUCCEEDED, 3, none, [("dataset.parquet", 3)]⟩,
         ⟨StepStatus.SUCCEEDED, 4, none, [("train.parquet", 4)]⟩]).getD 0
        default).lastUpdatedTimestamp = 9 ∧
    (∀ p ∈ ((runPipelineStepModel
        [⟨"ingest", true, ["dataset.parquet"]⟩, ⟨"split", false, ["train.parquet"]⟩] 0
        ["ingest", "split"] 9
        [⟨StepStatus.SUCCEEDED, 3, none, [("dataset.parquet", 3)]⟩,
         ⟨StepStatus.SUCCEEDED, 4, none, [("train.parquet", 4)]⟩]).getD 0
        default).outputFiles, p.2 = 9) ∧
    (∀ k, 0 < k → k < 2 →
      (runPipelineStepModel
        [⟨"ingest", true, ["dataset.parquet"]⟩, ⟨"split", false, ["train.parquet"]⟩] 0
        ["ingest", "split"] 9
        [⟨StepStatus.SUCCEEDED, 3, none, [("dataset.parquet", 3)]⟩,
         ⟨StepStatus.SUCCEEDED, 4, none, [("train.parquet", 4)]⟩]).getD k default =
        initialRecord) :=
  ingest_target_fresh_and_clears_downstream
    [⟨"ingest", true, ["dataset.parquet"]⟩, ⟨"split", false, ["train.parquet"]⟩] 0
    ["ingest", "split"] 9
    [⟨StepStatus.SUCCEEDED, 3, none, [("dataset.parquet", 3)]⟩,
     ⟨StepStatus.SUCCEEDED, 4, none, [("train.parquet", 4)]⟩]
    (by decide) (by decide)

/-- Claim C4: re-running a non-ingest target step whose configuration and
upstream configuration are unchanged — the external runner reports the
target rule as up to date and starts no earlier step — is a full cache hit:
every step's persisted execution state, including every recorded
output-file modification timestamp, is left unchanged by the run. -/
theorem full_cache_hit_preserves_state (steps : List PStep) (target : Nat)
    (outputLines : List String) (now : Nat) (st : List StepRecord)
    (htarget : target < steps.length)
    (hidx : (steps.map PStep.name).indexOf ((steps.getD target default).name) = target)
    (hing : (steps.getD target default).isIngest = false)
    (hup : hasUpToDateMarker ((steps.getD target default).name) outputLines = true)
    (hnostart : someStartBeforeTarget ((steps.getD target default).name) outputLines
      (steps.map PStep.name) = false) :
    runPipelineStepModel steps target
      (stepsCached ((steps.getD target default).name) outputLines (steps.map PStep.name))
      now st = st := by
  have hcached : stepsCached ((steps.getD target default).name) outputLines
      (steps.map PStep.name) = (steps.map PStep.name).take (target + 1) := by
    have h := (stepsCached_characterization ((steps.getD target default).name) outputLines
      (steps.map PStep.name)).1 hup hnostart
    rw [h, hidx]
  apply runStateAux_unchanged
  intro j
  by_cases hj : j ≤ target
  · have hjlen : j < steps.length := lt_of_le_of_lt hj htarget
    have hjm : j < (steps.map PStep.name).length := by simpa using hjlen
    have hgd : steps.getD j default = steps[j] := by
      simp [List.getD_eq_getElem?_getD, List.getElem?_eq_getElem hjlen]
    have hmem : (steps.getD j default).name ∈
        stepsCached ((steps.getD target default).name) outputLines (steps.map PStep.name) := by
      rw [hcached, hgd]
      have hmap : steps[j].name = (steps.map PStep.name).get ⟨j, hjm⟩ := by simp
      rw [hmap]
      exact getElem_mem_take (steps.map PStep.name) j (target + 1) (by omega) hjm
    rcases eq_or_lt_of_le hj with rfl | hlt
    · unfold executedFresh
      rw [decide_eq_true hmem, hing]
      simp
    · have hne : j ≠ target := Nat.ne_of_lt hlt
      unfold executedFresh
      rw [decide_eq_true hmem]
      simp [hne]
  · unfold executedFresh
    simp [hj]

/-- Concrete instantiation of the full-cache-hit theorem: a second run of
target "split" on up-to-date runner output leaves both records untouched. -/
theorem full_cache_hit_preserves_state_witness :
    runPipelineStepModel
      [⟨"ingest", true, ["dataset.parquet"]⟩, ⟨"split", false, ["train.parquet"]⟩] 1
      (stepsCached
        (([⟨"ingest", true, ["dataset.parquet"]⟩,
           ⟨"split", false, ["train.parquet"]⟩] : List PStep).getD 1 default).name
        [upToDateText "split"]
        (([⟨"ingest", true, ["dataset.parquet"]⟩,
           ⟨"split", false, ["train.parquet"]⟩] : List PStep).map PStep.name)) 7
      [⟨StepStatus.SUCCEEDED, 3, none, [("dataset.parquet", 3)]⟩,
       ⟨StepStatus.SUCCEEDED, 4, none, [("train.parquet", 4)]⟩] =
      [⟨StepStatus.SUCCEEDED, 3, none, [("dataset.parquet", 3)]⟩,
       ⟨StepStatus.SUCCEEDED, 4, none, [("train.parquet", 4)]⟩] :=
  full_cache_hit_preserves_state
    [⟨"ingest", true, ["dataset.parquet"]⟩, ⟨"split", false, ["train.parquet"]⟩] 1
    [upToDateText "split"] 7
    [⟨StepStatus.SUCCEEDED, 3, none, [("dataset.parquet", 3)]⟩,
     ⟨StepStatus.SUCCEEDED, 4, none, [("train.parquet", 4)]⟩]
    (by decide) (by decide) (by decide) (by decide) (by decide)

/-! Execution directory manager.  `_get_or_create_execution_directory`
lives in `mlflow/pipelines/utils/execution.py`, which is not among the
source files; the on-disk state and staging below are modelled from the
specification (§4.3) and from the failure injections exercised in
`tests/pipelines/test_execution_utils.py`: the user-editable step stubs are
created under the pipeline root, then the Makefile is regenerated and the
per-step output directories are created under the execution directory, with
injectable failures before the Makefile stage and before the
step-directory stage. -/

/-- The on-disk state the execution directory manager touches. -/
structure FSState where
  rootStubFiles : List String
  execDirCreated : Bool
  makefile : Option String
  stepOutputDirs : List String
deriving DecidableEq, Repr

/-- Failure injection points of the directory-creation stages. -/
inductive FailPoint
  | noFailure
  | atMakefile
  | atStepDirectories
deriving DecidableEq, Repr

/-- Modelled from the spec: the user-editable step-definition stub files
scaffolded under the pipeline root. -/
def requiredStubFiles : List String :=
  ["steps", "steps/ingest.py", "steps/split.py", "steps/train.py", "steps/transform.py",
   "steps/custom_metrics.py"]

/-- Create each listed file that is missing, independently of the others,
keeping every existing file untouched. -/
def createMissing (existing required : List String) : List String :=
  existing ++ required.filter (fun f => decide (f ∉ existing))

/-- Modelled from the spec: the stable execution-directory path derived
from the pipeline root. -/
def execDirPathFor (pipelineRootPath : String) : String :=
  pipelineRootPath ++ "/.mlflow/pipelines/execution"

/-- Modelled from the spec: the build description regenerated on every
call, a deterministic function of the step list and the template. -/
def makefileContent (stepNames : List String) (template : String) : String :=
  template ++ ": " ++ String.intercalate " " stepNames

/-- Modelled from the spec: `_get_or_create_execution_directory` with an
injectable failure point.  Returns the file-system state as left behind by
the call together with either the execution directory path or the
propagated exception message. -/
def getOrCreateExecutionDirectory (pipelineRootPath : String) (stepNames : List String)
    (template : String) (fail : FailPoint) (fs : FSState) : FSState × Except String String :=
  let fs1 : FSState := { fs with
    execDirCreated := true,
    rootStubFiles := createMissing fs.rootStubFiles requiredStubFiles }
  if fail = FailPoint.atMakefile then (fs1, Except.error "Makefile creation failed")
  else
    let fs2 : FSState := { fs1 with makefile := some (makefileContent stepNames template) }
    if fail = FailPoint.atStepDirectories then
      (fs2, Except.error "Step directory creation failed")
    else
      let fs3 : FSState := { fs2 with
        stepOutputDirs := createMissing fs2.stepOutputDirs stepNames }
      (fs3, Except.ok (execDirPathFor pipelineRootPath))

lemma mem_createMissing (existing required : List String) (f : String) (hf : f ∈ required) :
    f ∈ createMissing existing required := by
  unfold createMissing
  by_cases h : f ∈ existing
  · exact List.mem_append_left _ h
  · exact List.mem_append_right _ (List.mem_filter.mpr ⟨hf, by simp [h]⟩)

lemma createMissing_idem (existing required : List String) :
    createMissing (createMissing existing required) required =
      createMissing existing required := by
  have hnil : required.filter
      (fun f => decide (f ∉ createMissing existing required)) = [] := by
    apply List.filter_eq_nil_iff.mpr
    intro f hf
    have hmem := mem_createMissing existing required f hf
    simp [hmem]
  show createMissing existing required ++ required.filter
      (fun f => decide (f ∉ createMissing existing required)) =
    createMissing existing required
  rw [hnil, List.append_nil]

/-- Claim C5: the ensure operation is idempotent — a failure-free call
returns the stable execution-directory path, and repeating it with
identical inputs returns the same path and leaves the scaffold (stub files,
Makefile, per-step output directories) exactly as the first call did,
without duplication. -/
theorem execution_directory_ensure_idempotent (pipelineRootPath : String)
    (stepNames : List String) (template : String) (fs : FSState) :
    (getOrCreateExecutionDirectory pipelineRootPath stepNames template FailPoint.noFailure
      fs).2 = Except.ok (execDirPathFor pipelineRootPath) ∧
    getOrCreateExecutionDirectory pipelineRootPath stepNames template FailPoint.noFailure
      (getOrCreateExecutionDirectory pipelineRootPath stepNames template FailPoint.noFailure
        fs).1 =
      getOrCreateExecutionDirectory pipelineRootPath stepNames template FailPoint.noFailure
        fs := by
  constructor
  · rfl
  · simp [getOrCreateExecutionDirectory, createMissing_idem]

/-- Claim C6: when a stage of the ensure operation fails, the exception
propagates to the caller, the directory retains exactly the artifacts the
earlier stages created (no rollback), and a subsequent failure-free call
with the same inputs produces exactly the state a failure-free call from
the original state would have produced — it completes the missing pieces
without re-doing or corrupting the completed ones. -/
theorem execution_directory_failure_resume (pipelineRootPath : String)
    (stepNames : List String) (template : String) (fs : FSState) :
    getOrCreateExecutionDirectory pipelineRootPath stepNames template FailPoint.atMakefile fs =
      ({ fs with
          execDirCreated := true,
          rootStubFiles := createMissing fs.rootStubFiles requiredStubFiles },
        Except.error "Makefile creation failed") ∧
    getOrCreateExecutionDirectory pipelineRootPath stepNames template FailPoint.noFailure
      (getOrCreateExecutionDirectory pipelineRootPath stepNames template FailPoint.atMakefile
        fs).1 =
      getOrCreateExecutionDirectory pipelineRootPath stepNames template FailPoint.noFailure
        fs ∧
    getOrCreateExecutionDirectory pipelineRootPath stepNames template
        FailPoint.atStepDirectories fs =
      ({ fs with
          execDirCreated := true,
          rootStubFiles := createMissing fs.rootStubFiles requiredStubFiles,
          makefile := some (makefileContent stepNames template) },
        Except.error "Step directory creation failed") ∧
    getOrCreateExecutionDirectory pipelineRootPath stepNames template FailPoint.noFailure
      (getOrCreateExecutionDirectory pipelineRootPath stepNames template
        FailPoint.atStepDirectories fs).1 =
      getOrCreateExecutionDirectory pipelineRootPath stepNames template FailPoint.noFailure
        fs := by
  refine ⟨rfl, ?_, rfl, ?_⟩
  · simp [getOrCreateExecutionDirectory, createMissing_idem]
  · simp [getOrCreateExecutionDirectory, createMissing_idem]

/-! Dataset splitting: `_get_split_df` (`split.py` lines 40-63).  A
dataframe is modelled as the list of its rows, each row paired with its
hash-bucket value; Python's boolean-mask selection over the `hash_buckets`
series is `List.filter` on the paired rows, and the three-element
`split_ratios` list arrives destructured, as in the source. -/

/-- Embedding of `_get_split_df`: rows whose bucket lies below the train
boundary, between the train and validation boundaries, and at or above the
validation boundary. -/
def getSplitDf {α : Type} (inputDf : List (α × ℚ))
    (ratioTrain ratioValidation ratioTest : ℚ) :
    List (α × ℚ) × List (α × ℚ) × List (α × ℚ) :=
  let ratioSum := ratioTrain + ratioValidation + ratioTest
  let trainBucketEnd := ratioTrain / ratioSum
  let validationBucketEnd := (ratioTrain + ratioValidation) / ratioSum
  (inputDf.filter (fun p => decide (p.2 < trainBucketEnd)),
   inputDf.filter (fun p => decide (trainBucketEnd ≤ p.2 ∧ p.2 < validationBucketEnd)),
   inputDf.filter (fun p => decide (p.2 ≥ validationBucketEnd)))

lemma filter3_length {β : Type} (p1 p2 p3 : β → Bool)
    (h : ∀ x, (p1 x).toNat + (p2 x).toNat + (p3 x).toNat = 1) (l : List β) :
    (l.filter p1).length + (l.filter p2).length + (l.filter p3).length = l.length := by
  induction l with
  | nil => rfl
  | cons a tl ih =>
    have ha := h a
    cases h1 : p1 a <;> cases h2 : p2 a <;> cases h3 : p3 a <;>
      rw [h1, h2, h3] at ha <;>
      simp only [Bool.toNat_false, Bool.toNat_true] at ha <;>
      simp [List.filter_cons, h1, h2, h3] <;> omega

lemma filter3_partition {β : Type} (l : List β) (p1 p2 p3 : β → Bool)
    (h : ∀ x, (p1 x).toNat + (p2 x).toNat + (p3 x).toNat = 1) :
    (∀ p, p ∈ l ↔ (p ∈ l.filter p1 ∨ p ∈ l.filter p2 ∨ p ∈ l.filter p3)) ∧
    (∀ p, ¬(p ∈ l.filter p1 ∧ p ∈ l.filter p2)) ∧
    (∀ p, ¬(p ∈ l.filter p1 ∧ p ∈ l.filter p3)) ∧
    (∀ p, ¬(p ∈ l.filter p2 ∧ p ∈ l.filter p3)) ∧
    ((l.filter p1).length + (l.filter p2).length + (l.filter p3).length = l.length) := by
  refine ⟨?_, ?_, ?_, ?_, filter3_length p1 p2 p3 h l⟩
  · intro p
    constructor
    · intro hp
      have hx := h p
      cases e1 : p1 p
      · cases e2 : p2 p
        · cases e3 : p3 p
          · rw [e1, e2, e3] at hx
            simp at hx
          · exact Or.inr (Or.inr (List.mem_filter.mpr ⟨hp, e3⟩))
        · exact Or.inr (Or.inl (List.mem_filter.mpr ⟨hp, e2⟩))
      · exact Or.inl (List.mem_filter.mpr ⟨hp, e1⟩)
    · rintro (hm | hm | hm) <;> exact (List.mem_filter.mp hm).1
  · rintro p ⟨ha, hb⟩
    have hx := h p
    rw [(List.mem_filter.mp ha).2, (List.mem_filter.mp hb).2] at hx
    simp only [Bool.toNat_true] at hx
    omega
  · rintro p ⟨ha, hb⟩
    have hx := h p
    rw [(List.mem_filter.mp ha).2, (List.mem_filter.mp hb).2] at hx
    simp only [Bool.toNat_true] at hx
    omega
  · rintro p ⟨ha, hb⟩
    have hx := h p
    rw [(List.mem_filter.mp ha).2, (List.mem_filter.mp hb).2] at hx
    simp only [Bool.toNat_true] at hx
    omega

/-- Claim C10: for every input dataframe, every hash-bucket assignment of
its rows to values in `[0, 1)`, and every triple of positive split ratios,
`_get_split_df` places each input row in exactly one of the train,
validation and test outputs: the three outputs are pairwise disjoint and
together they exhaust the input. -/
theorem split_df_partitions_input {α : Type} (inputDf : List (α × ℚ))
    (ratioTrain ratioValidation ratioTest : ℚ)
    (hbuckets : ∀ p ∈ inputDf, 0 ≤ p.2 ∧ p.2 < 1)
    (htr : 0 < ratioTrain) (hvr : 0 < ratioValidation) (hter : 0 < ratioTest) :
    (∀ p, p ∈ inputDf ↔
      (p ∈ (getSplitDf inputDf ratioTrain ratioValidation ratioTest).1 ∨
       p ∈ (getSplitDf inputDf ratioTrain ratioValidation ratioTest).2.1 ∨
       p ∈ (getSplitDf inputDf ratioTrain ratioValidation ratioTest).2.2)) ∧
    (∀ p, ¬(p ∈ (getSplitDf inputDf ratioTrain ratioValidation ratioTest).1 ∧
       p ∈ (getSplitDf inputDf ratioTrain ratioValidation ratioTest).2.1)) ∧
    (∀ p, ¬(p ∈ (getSplitDf inputDf ratioTrain ratioValidation ratioTest).1 ∧
       p ∈ (getSplitDf inputDf ratioTrain ratioValidation ratioTest).2.2)) ∧
    (∀ p, ¬(p ∈ (getSplitDf inputDf ratioTrain ratioValidation ratioTest).2.1 ∧
       p ∈ (getSplitDf inputDf ratioTrain ratioValidation ratioTest).2.2)) ∧
    ((getSplitDf inputDf ratioTrain ratioValidation ratioTest).1.length +
     (getSplitDf inputDf ratioTrain ratioValidation ratioTest).2.1.length +
     (getSplitDf inputDf ratioTrain ratioValidation ratioTest).2.2.length =
      inputDf.length) := by
  have hsum : (0:ℚ) < ratioTrain + ratioValidation + ratioTest := by linarith
  have hbe : ratioTrain / (ratioTrain + ratioValidation + ratioTest) ≤
      (ratioTrain + ratioValidation) / (ratioTrain + ratioValidation + ratioTest) := by
    gcongr
    linarith
  have hone : ∀ x : α × ℚ,
      (decide (x.2 < ratioTrain / (ratioTrain + ratioValidation + ratioTest))).toNat +
      (decide (ratioTrain / (ratioTrain + ratioValidation + ratioTest) ≤ x.2 ∧
        x.2 < (ratioTrain + ratioValidation) /
          (ratioTrain + ratioValidation + ratioTest))).toNat +
      (decide (x.2 ≥ (ratioTrain + ratioValidation) /
        (ratioTrain + ratioValidation + ratioTest))).toNat = 1 := by
    intro x
    by_cases h1 : x.2 < ratioTrain / (ratioTrain + ratioValidation + ratioTest)
    · have h2 : ¬(ratioTrain / (ratioTrain + ratioValidation + ratioTest) ≤ x.2 ∧
          x.2 < (ratioTrain + ratioValidation) / (ratioTrain + ratioValidation + ratioTest)) := by
        rintro ⟨hc, _⟩
        linarith
      have h3 : ¬(x.2 ≥ (ratioTrain + ratioValidation) /
          (ratioTrain + ratioValidation + ratioTest)) := by
        intro hc
        simp only [ge_iff_le] at hc
        linarith
      simp [h1, h2, h3]
    · by_cases h2 : x.2 < (ratioTrain + ratioValidation) /
          (ratioTrain + ratioValidation + ratioTest)
      · have h1a : ratioTrain / (ratioTrain + ratioValidation + ratioTest) ≤ x.2 :=
          le_of_not_lt h1
        have h3 : ¬(x.2 ≥ (ratioTrain + ratioValidation) /
            (ratioTrain + ratioValidation + ratioTest)) := by
          intro hc
          simp only [ge_iff_le] at hc
          linarith
        simp [h1, h1a, h2, h3]
      · have h3 : x.2 ≥ (ratioTrain + ratioValidation) /
            (ratioTrain + ratioValidation + ratioTest) := le_of_not_lt h2
        have hn2 : ¬(ratioTrain / (ratioTrain + ratioValidation + ratioTest) ≤ x.2 ∧
            x.2 < (ratioTrain + ratioValidation) /
              (ratioTrain + ratioValidation + ratioTest)) := by
          rintro ⟨_, hc⟩
          exact h2 hc
        simp [h1, hn2, h3]
  exact filter3_partition inputDf _ _ _ hone

/-- A small concrete dataframe: three rows, each with bucket value 0. -/
def sampleDf : List (Nat × ℚ) := [(0, 0), (1, 0), (2, 0)]

/-- Concrete instantiation of the split-partition theorem with ratios
(3, 1, 1) on `sampleDf`. -/
theorem split_df_partitions_input_witness :
    (∀ p, p ∈ sampleDf ↔
      (p ∈ (getSplitDf sampleDf 3 1 1).1 ∨ p ∈ (getSplitDf sampleDf 3 1 1).2.1 ∨
       p ∈ (getSplitDf sampleDf 3 1 1).2.2)) ∧
    (∀ p, ¬(p ∈ (getSplitDf sampleDf 3 1 1).1 ∧ p ∈ (getSplitDf sampleDf 3 1 1).2.1)) ∧
    (∀ p, ¬(p ∈ (getSplitDf sampleDf 3 1 1).1 ∧ p ∈ (getSplitDf sampleDf 3 1 1).2.2)) ∧
    (∀ p, ¬(p ∈ (getSplitDf sampleDf 3 1 1).2.1 ∧ p ∈ (getSplitDf sampleDf 3 1 1).2.2)) ∧
    ((getSplitDf sampleDf 3 1 1).1.length + (getSplitDf sampleDf 3 1 1).2.1.length +
      (getSplitDf sampleDf 3 1 1).2.2.length = sampleDf.length) :=
  split_df_partitions_input sampleDf 3 1 1 (by decide) (by decide) (by decide) (by decide)

end MLP
